import Mathlib

/-!
Shallow embedding of `src/hetcall.py` (the hetcall batch orchestrator):
list resolution (`read_file_list`), configuration synthesis (the
`base_cfg` dictionary in `main`), the per-sample runner
(`run_single_bam`), the batch loop and exit-status logic of `main`,
and the argparse option declarations (mutually exclusive groups).

Numbers that are Python floats are modelled as `Rat`; the library
float parser `float(...)` and argparse's `type=int` / `type=float`
conversions are parameters (`pf`, `pi`) of the embedding, since they
are library code outside the repository.  File contents are modelled
as `Option (List String)` (`none` = the path does not exist, lines
carry no trailing newline, as after Python's `line.strip()`).
-/

namespace Hetcall

/-- Python truthiness of an optional string argument: `None` and the
empty string are falsy. -/
def optTruthy : Option String → Bool
  | none => false
  | some s => s ≠ ""

/-- Python `str.strip()` on a character list: drop leading and
trailing whitespace. -/
def pyStripL (cs : List Char) : List Char :=
  ((cs.dropWhile Char.isWhitespace).reverse.dropWhile Char.isWhitespace).reverse

/-- Python `str.strip()`. -/
def pyStrip (s : String) : String :=
  String.mk (pyStripL s.data)

/-- Python `s.lower().strip()` as used on the interactive prompt answer. -/
def lowerStrip (s : String) : String :=
  String.mk (pyStripL (s.data.map Char.toLower))

/-- The check `response not in ['y', 'yes']` (negated): line 123 of the
source accepts exactly `y` and `yes` after lowering and stripping. -/
def isYes (resp : String) : Bool :=
  lowerStrip resp = "y" || lowerStrip resp = "yes"

/-- The worker of `pySplit`: walk the characters, accumulating the
current (reversed) field, emitting a field at each whitespace run. -/
def splitWsAux : List Char → List Char → List String
  | [], acc => if acc = [] then [] else [String.mk acc.reverse]
  | c :: cs, acc =>
    if c.isWhitespace then
      (if acc = [] then [] else [String.mk acc.reverse]) ++ splitWsAux cs []
    else splitWsAux cs (c :: acc)

/-- Python `str.split()` with no separator: split on runs of whitespace,
discarding empty fields. -/
def pySplit (s : String) : List String :=
  splitWsAux s.data []

/-- Python `str.rfind(c)`: index of the last occurrence of `c`, `-1` if
absent. -/
def rfindChar (c : Char) (cs : List Char) : Int :=
  match (cs.reverse).findIdx? (· = c) with
  | none => -1
  | some i => (cs.length : Int) - 1 - (i : Int)

/-- Python `os.path.basename` on POSIX: everything after the last `/`. -/
def basenameOf (p : String) : String :=
  String.mk ((p.data).drop ((rfindChar '/' p.data) + 1).toNat)

/-- The root part of Python `os.path.splitext`: drop the extension that
starts at the last dot, unless every character of the base name before
that dot is itself a dot (leading dots never start an extension). -/
def splitextRoot (p : String) : String :=
  let cs := p.data
  let sepIdx := rfindChar '/' cs
  let dotIdx := rfindChar '.' cs
  if dotIdx > sepIdx then
    let seg := (cs.drop (sepIdx + 1).toNat).take (dotIdx - sepIdx - 1).toNat
    if seg.any (· ≠ '.') then String.mk (cs.take dotIdx.toNat) else p
  else p

/-- One line of a BAM list, already stripped and kept: first
whitespace-separated token is the path; the second token, when present,
is the output tag, else the path's base name with its extension removed
(lines 85–90 of the source). -/
def parseBamLine (l : String) : String × String :=
  let parts := pySplit l
  let bamPath := parts.headD ""
  let tag :=
    match parts with
    | _ :: t :: _ => t
    | _ => splitextRoot (basenameOf bamPath)
  (bamPath, tag)

/-- A stripped line is kept when it is non-blank and does not start
with `#` (line 84 of the source). -/
def keepLine (l : String) : Bool :=
  match l.data with
  | [] => false
  | c :: _ => c ≠ '#'

/-- The failure modes of `read_file_list` (each is a message to stderr
followed by `sys.exit(1)` in the source). -/
inductive ListError where
  | missingFile (path : String)
  | parseError (lineNum : Nat) (text : String) (path : String)
  | emptyList (path : String)
  deriving DecidableEq, Repr

/-- The kept lines of a file with their 1-based line numbers, each
stripped, blank and `#` lines dropped; `n` is the number of the first
line (the source starts `enumerate(f, 1)` at 1). -/
def keptFrom : Nat → List String → List (Nat × String)
  | _, [] => []
  | n, line :: rest =>
    let l := pyStrip line
    if keepLine l then (n, l) :: keptFrom (n + 1) rest
    else keptFrom (n + 1) rest

/-- The numeric-mode loop body of `read_file_list` (lines 80–97):
strip, skip blank and `#` lines, parse each kept line with `pf`
(Python `float`), fail with the 1-based line number and the offending
stripped text on the first kept line that does not parse. -/
def readValuesAux (pf : String → Option Rat) (path : String) :
    Nat → List String → Except ListError (List Rat)
  | _, [] => .ok []
  | n, line :: rest =>
    let l := pyStrip line
    if keepLine l then
      match pf l with
      | some v =>
        match readValuesAux pf path (n + 1) rest with
        | .ok vs => .ok (v :: vs)
        | .error e => .error e
      | none => .error (.parseError n l path)
    else readValuesAux pf path (n + 1) rest

/-- `read_file_list` in numeric mode (`list_type` other than `"bams"`):
missing file, per-line parse, then the emptiness check (lines 74–103). -/
def read_file_list_values (pf : String → Option Rat) (path : String)
    (file : Option (List String)) : Except ListError (List Rat) :=
  match file with
  | none => .error (.missingFile path)
  | some lines =>
    match readValuesAux pf path 1 lines with
    | .error e => .error e
    | .ok items => if items = [] then .error (.emptyList path) else .ok items

/-- The BAM-mode loop body of `read_file_list`: every kept line parses
into a `(path, tag)` pair; parsing cannot fail in this mode. -/
def readBamsAux : Nat → List String → List (String × String)
  | _, [] => []
  | n, line :: rest =>
    let l := pyStrip line
    if keepLine l then parseBamLine l :: readBamsAux (n + 1) rest
    else readBamsAux (n + 1) rest

/-- `read_file_list` in `"bams"` mode: missing file, per-line pair
extraction, then the emptiness check. -/
def read_file_list_bams (path : String) (file : Option (List String)) :
    Except ListError (List (String × String)) :=
  match file with
  | none => .error (.missingFile path)
  | some lines =>
    let items := readBamsAux 1 lines
    if items = [] then .error (.emptyList path) else .ok items

/-- The parsed command-line options (the `args` namespace produced by
`argparse` in `main`), with the defaults declared in the source.
`outPref` models `args.out_prefix`. -/
structure Args where
  bam : Option String := none
  bam_list : Option String := none
  outPref : Option String := none
  outdir : String := "results"
  scripts : String := "diversity"
  min_depth : Int := 10
  cores : Int := 8
  threshold : List Rat := []
  threshold_list : Option String := none
  roh_min : List Rat := []
  roh_list : Option String := none
  regions : Option String := none
  rf : Option String := none
  snakefile : String := "Snakefile"
  configfile : Option String := none
  dry_run : Bool := false
  unlock : Bool := false
  force : Bool := false
  help : Bool := false
  deriving DecidableEq, Repr

/-- The dynamically-typed `roh_min` entry of the config dictionary:
a single number when exactly one ROH threshold was supplied, otherwise
the full list (line 273 of the source). -/
inductive RohMin where
  | scalar (x : Rat)
  | list (xs : List Rat)
  deriving DecidableEq, Repr

/-- The configuration dictionary written as YAML: the fields of
`base_cfg` (lines 266–275) plus the per-sample `bam` and `prefix`
entries added in `run_single_bam` (`pref` models the latter). -/
structure Cfg where
  rf : Option String
  regions : Option String
  scripts : String
  outdir : String
  min_depth : Int
  thresholds : List Rat
  roh_min : RohMin
  angsd_threads : Int
  bam : Option String := none
  pref : Option String := none
  deriving DecidableEq, Repr

/-- The `base_cfg` dictionary of `main` (lines 266–275), given the
already-resolved threshold and ROH lists. -/
def buildBase (args : Args) (thresholds roh_mins : List Rat) : Cfg :=
  { rf := args.rf
    regions := args.regions
    scripts := args.scripts
    outdir := args.outdir
    min_depth := args.min_depth
    thresholds := thresholds
    roh_min :=
      match roh_mins with
      | [x] => .scalar x
      | xs => .list xs
    angsd_threads := max 1 (min args.cores 64) }

/-- The config file path of `run_single_bam` (line 117): the explicit
override when truthy, else the auto-derived `config_<prefix>.yaml`. -/
def cfgPathOf (args : Args) (tag : String) : String :=
  if optTruthy args.configfile then args.configfile.getD ""
  else "config_" ++ tag ++ ".yaml"

/-- The snakemake invocation built in `run_single_bam` (lines 134–147):
fixed-order base command with the raw `args.cores`, then the
conditional `--dry-run` and `--unlock` flags. -/
def buildCmd (args : Args) (cfg_path : String) : List String :=
  (["snakemake", "-s", args.snakefile, "--cores", toString args.cores,
    "--rerun-incomplete", "--printshellcmds", "--configfile", cfg_path]
   ++ (if args.dry_run then ["--dry-run"] else []))
   ++ (if args.unlock then ["--unlock"] else [])

/-- How one call of `run_single_bam` ends: skipped at the overwrite
prompt, returned `True` on a dry run, or returned `True`/`False` from
an actual engine invocation. -/
inductive RunOutcome where
  | skipped
  | dryRunSuccess
  | execSuccess
  | execFailure
  deriving DecidableEq, Repr

/-- The boolean return value of `run_single_bam` for each outcome. -/
def RunOutcome.ok : RunOutcome → Bool
  | .skipped => false
  | .dryRunSuccess => true
  | .execSuccess => true
  | .execFailure => false

/-- Whether the outcome involved launching the external process
(`subprocess.call` on line 156). -/
def RunOutcome.executed : RunOutcome → Bool
  | .execSuccess => true
  | .execFailure => true
  | _ => false

/-- The observable effects of one `run_single_bam` call: its outcome,
whether the config artifact was written (and with what content), and
the command it displayed. -/
structure RunEffects where
  outcome : RunOutcome
  wrote : Bool
  written : Option Cfg
  cmd : List String
  deriving DecidableEq, Repr

/-- `run_single_bam` (lines 105–162) on one sample.  `cfgExists` is
whether the target config path already exists, `promptAnswer` the
interactive reply read when the overwrite prompt fires, `engineExit`
the exit code `subprocess.call` would observe.  Control flow follows
the source: overwrite guard first, then the unconditional write, then
the dry-run early return, then the synchronous engine call. -/
def run_single_bam (args : Args) (base_cfg : Cfg) (bamPath tag : String)
    (cfgExists : Bool) (promptAnswer : String) (engineExit : Int) :
    RunEffects :=
  let cfg : Cfg := { base_cfg with bam := some bamPath, pref := some tag }
  let cfg_path := cfgPathOf args tag
  let cmd := buildCmd args cfg_path
  if cfgExists && !args.force && !isYes promptAnswer then
    { outcome := .skipped, wrote := false, written := none, cmd := cmd }
  else if args.dry_run then
    { outcome := .dryRunSuccess, wrote := true, written := some cfg, cmd := cmd }
  else if engineExit = 0 then
    { outcome := .execSuccess, wrote := true, written := some cfg, cmd := cmd }
  else
    { outcome := .execFailure, wrote := true, written := some cfg, cmd := cmd }

/-- The world outside the program, indexed per run position in the
batch: the contents of list files, whether the i-th run's config path
already exists when checked, the i-th interactive prompt answer, and
the i-th engine exit code. -/
structure Env where
  files : String → Option (List String)
  cfgExists : Nat → Bool
  promptAnswer : Nat → String
  engineExit : Nat → Int

/-- The batch loop of `main` (lines 283–285): one `run_single_bam`
call per resolved entry, in order, with no early exit. -/
def batchEffects (args : Args) (base_cfg : Cfg) (env : Env) :
    Nat → List (String × String) → List RunEffects
  | _, [] => []
  | i, (b, t) :: rest =>
    run_single_bam args base_cfg b t (env.cfgExists i) (env.promptAnswer i)
        (env.engineExit i)
      :: batchEffects args base_cfg env (i + 1) rest

/-- The `success_count` accumulated by the batch loop: the number of
runs whose `run_single_bam` returned `True`. -/
def countOk (effs : List RunEffects) : Nat :=
  (effs.filter (fun e => e.outcome.ok)).length

/-- Threshold resolution in `main` (lines 250–255): list file when the
option is truthy, else the repeated flag values when non-empty, else
the default `[0.05]`. -/
def resolveThresholds (pf : String → Option Rat) (args : Args) (env : Env) :
    Except ListError (List Rat) :=
  if optTruthy args.threshold_list then
    read_file_list_values pf (args.threshold_list.getD "")
      (env.files (args.threshold_list.getD ""))
  else if args.threshold ≠ [] then .ok args.threshold
  else .ok [(0.05 : Rat)]

/-- ROH threshold resolution in `main` (lines 258–263), default `[0.2]`. -/
def resolveRoh (pf : String → Option Rat) (args : Args) (env : Env) :
    Except ListError (List Rat) :=
  if optTruthy args.roh_list then
    read_file_list_values pf (args.roh_list.getD "")
      (env.files (args.roh_list.getD ""))
  else if args.roh_min ≠ [] then .ok args.roh_min
  else .ok [(0.2 : Rat)]

/-- The validation at lines 245–247: a truthy `--bam` with a falsy
`--out-prefix` is fatal. -/
def bamPrefixOk (args : Args) : Bool :=
  !(optTruthy args.bam && !optTruthy args.outPref)

/-- What `main` is observed to do after argument parsing: the process
exit status, the `(bam, prefix)` pairs attempted in order, and the
effects of each attempted run. -/
structure MainResult where
  exitCode : Nat
  attempts : List (String × String)
  effects : List RunEffects
  deriving Repr

/-- `main` from the post-parse validation to process exit (lines
244–296): prefix validation, threshold and ROH resolution, `base_cfg`
synthesis, then either the batch over the resolved BAM list (exit 1
when `success_count < len(bam_list)`) or the single-sample run (exit 1
when it returned `False`). -/
def mainRun (pf : String → Option Rat) (args : Args) (env : Env) :
    MainResult :=
  if !bamPrefixOk args then ⟨1, [], []⟩
  else
    match resolveThresholds pf args env with
    | .error _ => ⟨1, [], []⟩
    | .ok thresholds =>
      match resolveRoh pf args env with
      | .error _ => ⟨1, [], []⟩
      | .ok roh_mins =>
        let base_cfg := buildBase args thresholds roh_mins
        if optTruthy args.bam_list then
          match read_file_list_bams (args.bam_list.getD "")
              (env.files (args.bam_list.getD "")) with
          | .error _ => ⟨1, [], []⟩
          | .ok bams =>
            let effs := batchEffects args base_cfg env 0 bams
            ⟨if countOk effs < bams.length then 1 else 0, bams, effs⟩
        else
          let b := args.bam.getD ""
          let t := args.outPref.getD ""
          let eff := run_single_bam args base_cfg b t (env.cfgExists 0)
            (env.promptAnswer 0) (env.engineExit 0)
          ⟨if eff.outcome.ok then 0 else 1, [(b, t)], [eff]⟩

/-- All pre-batch validations of `main` in one boolean: the
prefix check and the three list resolutions (the BAM list only when a
list was requested). -/
def validationsOk (pf : String → Option Rat) (args : Args) (env : Env) :
    Bool :=
  bamPrefixOk args
    && (resolveThresholds pf args env).isOk
    && (resolveRoh pf args env).isOk
    && (!optTruthy args.bam_list
        || (read_file_list_bams (args.bam_list.getD "")
            (env.files (args.bam_list.getD ""))).isOk)

/-- The options declared on the `argparse` parser in `main`
(lines 170–235), one constructor per `add_argument` call. -/
inductive OptName where
  | bam | bamList | outPrefixOpt | outdirOpt | scriptsOpt | minDepth
  | cores | threshold | thresholdList | rohMin | rohList | regionsOpt
  | rfOpt | snakefileOpt | configfileOpt | dryRun | unlockOpt | forceOpt
  | helpOpt
  deriving DecidableEq, Repr

/-- The option-string table: which declared option a command-line token
names (short and long forms as declared in the source). -/
def lookupOpt : String → Option OptName
  | "-b" => some .bam
  | "--bam" => some .bam
  | "-l" => some .bamList
  | "--bam-list" => some .bamList
  | "-o" => some .outPrefixOpt
  | "--out-prefix" => some .outPrefixOpt
  | "-d" => some .outdirOpt
  | "--outdir" => some .outdirOpt
  | "-s" => some .scriptsOpt
  | "--scripts" => some .scriptsOpt
  | "-m" => some .minDepth
  | "--min-depth" => some .minDepth
  | "-c" => some .cores
  | "--cores" => some .cores
  | "-t" => some .threshold
  | "--threshold" => some .threshold
  | "-T" => some .thresholdList
  | "--threshold-list" => some .thresholdList
  | "-R" => some .rohMin
  | "--roh-min" => some .rohMin
  | "-L" => some .rohList
  | "--roh-list" => some .rohList
  | "-r" => some .regionsOpt
  | "--regions" => some .regionsOpt
  | "-f" => some .rfOpt
  | "--rf" => some .rfOpt
  | "-S" => some .snakefileOpt
  | "--snakefile" => some .snakefileOpt
  | "-C" => some .configfileOpt
  | "--configfile" => some .configfileOpt
  | "-n" => some .dryRun
  | "--dry-run" => some .dryRun
  | "-u" => some .unlockOpt
  | "--unlock" => some .unlockOpt
  | "-F" => some .forceOpt
  | "--force" => some .forceOpt
  | "-h" => some .helpOpt
  | "--help" => some .helpOpt
  | _ => none

/-- Which mutually exclusive group an option belongs to: 1 for
`-b`/`-l` (required), 2 for `-t`/`-T`, 3 for `-R`/`-L`, 4 for
`-r`/`-f`, matching the four `add_mutually_exclusive_group` calls. -/
def groupOf : OptName → Option Nat
  | .bam => some 1
  | .bamList => some 1
  | .threshold => some 2
  | .thresholdList => some 2
  | .rohMin => some 3
  | .rohList => some 3
  | .regionsOpt => some 4
  | .rfOpt => some 4
  | _ => none

/-- Which `store_true` flags take no value token. -/
def isFlag : OptName → Bool
  | .dryRun => true
  | .unlockOpt => true
  | .forceOpt => true
  | .helpOpt => true
  | _ => false

/-- Which member of each mutually exclusive group has been seen so
far, as argparse tracks it to raise the `not allowed with` error. -/
structure Seen where
  g1 : Option OptName := none
  g2 : Option OptName := none
  g3 : Option OptName := none
  g4 : Option OptName := none
  deriving DecidableEq, Repr

/-- The recorded member of group `g`. -/
def Seen.get (s : Seen) : Nat → Option OptName
  | 1 => s.g1
  | 2 => s.g2
  | 3 => s.g3
  | _ => s.g4

/-- Record that a member of group `g` has been consumed. -/
def Seen.set (s : Seen) (g : Nat) (o : OptName) : Seen :=
  match g with
  | 1 => { s with g1 := some o }
  | 2 => { s with g2 := some o }
  | 3 => { s with g3 := some o }
  | _ => { s with g4 := some o }

/-- The argparse mutual-exclusion check: consuming an action whose
group already saw a different action is an error; otherwise the action
is recorded. -/
def checkGroup (o : OptName) (s : Seen) : Option Seen :=
  match groupOf o with
  | none => some s
  | some g =>
    match s.get g with
    | some o2 => if o2 = o then some s else none
    | none => some (s.set g o)

/-- Apply a `store_true` flag to the parsed namespace. -/
def setFlag (o : OptName) (a : Args) : Args :=
  match o with
  | .dryRun => { a with dry_run := true }
  | .unlockOpt => { a with unlock := true }
  | .forceOpt => { a with force := true }
  | .helpOpt => { a with help := true }
  | _ => a

/-- Store one option value into the parsed namespace, applying the
declared `type=` conversion (`pf` for `float`, `pi` for `int`);
`append` actions accumulate in order. `none` models the argparse
`invalid ... value` fatal error. -/
def setVal (pf : String → Option Rat) (pi : String → Option Int)
    (o : OptName) (v : String) (a : Args) : Option Args :=
  match o with
  | .bam => some { a with bam := some v }
  | .bamList => some { a with bam_list := some v }
  | .outPrefixOpt => some { a with outPref := some v }
  | .outdirOpt => some { a with outdir := v }
  | .scriptsOpt => some { a with scripts := v }
  | .minDepth => (pi v).map fun n => { a with min_depth := n }
  | .cores => (pi v).map fun n => { a with cores := n }
  | .threshold => (pf v).map fun x => { a with threshold := a.threshold ++ [x] }
  | .thresholdList => some { a with threshold_list := some v }
  | .rohMin => (pf v).map fun x => { a with roh_min := a.roh_min ++ [x] }
  | .rohList => some { a with roh_list := some v }
  | .regionsOpt => some { a with regions := some v }
  | .rfOpt => some { a with rf := some v }
  | .snakefileOpt => some { a with snakefile := v }
  | .configfileOpt => some { a with configfile := some v }
  | _ => some a

/-- Left-to-right token consumption of `argparse.parse_args` restricted
to the declared option set: each non-flag option takes the next token
as its value; unknown tokens, missing values, failed conversions and
mutual-exclusion conflicts are fatal parse errors. -/
def parseLoop (pf : String → Option Rat) (pi : String → Option Int) :
    List String → Args → Seen → Option (Args × Seen)
  | [], a, s => some (a, s)
  | tok :: rest, a, s =>
    match lookupOpt tok with
    | none => none
    | some o =>
      match checkGroup o s with
      | none => none
      | some s2 =>
        if isFlag o then parseLoop pf pi rest (setFlag o a) s2
        else
          match rest with
          | [] => none
          | v :: rest2 =>
            match setVal pf pi o v a with
            | none => none
            | some a2 => parseLoop pf pi rest2 a2 s2

/-- `parse_args` on a full command line: run the token loop from the
declared defaults, then enforce that the required group (`-b`/`-l`)
was satisfied. -/
def parse_args (pf : String → Option Rat) (pi : String → Option Int)
    (argv : List String) : Option Args :=
  match parseLoop pf pi argv {} {} with
  | none => none
  | some (a, s) => if s.g1.isSome then some a else none

/-! Shared example values used by witnesses. -/

/-- An example options record with the dry-run flag set. -/
def argsDryEx : Args := { dry_run := true }

/-- An example base configuration built from the defaults. -/
def baseCfgEx : Cfg := buildBase {} [(0.05 : Rat)] [(0.2 : Rat)]

/-- An example environment: no list files, every config path already
exists, every prompt is answered `n`, every engine call exits 0. -/
def envEx : Env :=
  { files := fun _ => none
    cfgExists := fun _ => true
    promptAnswer := fun _ => "n"
    engineExit := fun _ => 0 }

/-- The sample list of the end-to-end scenario: one line with an
explicit output name, one with only a path, one comment. -/
def linesEx : List String := ["a.bam sampleA", "b.bam", "#c.bam ignored"]

/-- Example options selecting a sample-list file. -/
def argsListEx : Args := { bam_list := some "bl.txt" }

/-- Example environment carrying the sample list, with no pre-existing
config files and successful engine runs. -/
def envListEx : Env :=
  { files := fun p => if p = "bl.txt" then some linesEx else none
    cfgExists := fun _ => false
    promptAnswer := fun _ => ""
    engineExit := fun _ => 0 }

/-- A numeric parser that never accepts, usable where no numeric
option value occurs. -/
def pfNone : String → Option Rat := fun _ => none

/-- An integer parser that never accepts, usable where no integer
option value occurs. -/
def piNone : String → Option Int := fun _ => none

/-- A concrete numeric parser accepting exactly `0.05` and `0.1`,
standing in for Python `float` on a file containing those spellings. -/
def pfEx : String → Option Rat := fun s =>
  if s = "0.05" then some (0.05 : Rat)
  else if s = "0.1" then some (0.1 : Rat)
  else none

/-- Example options requesting a threshold-list file. -/
def argsTLEx : Args := { threshold_list := some "missing.txt" }

/-- Example environment in which no file exists at all. -/
def envNoneEx : Env :=
  { files := fun _ => none
    cfgExists := fun _ => false
    promptAnswer := fun _ => ""
    engineExit := fun _ => 0 }

/-- The parser invariant tying the region fields of the namespace to
the seen-state of the region group. -/
def RegionInv (a : Args) (s : Seen) : Prop :=
  (a.regions.isSome = true → s.g4 = some .regionsOpt) ∧
  (a.rf.isSome = true → s.g4 = some .rfOpt)

/-- The example command line of the C3 witness: one region option
only, with a BAM and a prefix. -/
def argvC3 : List String := ["-b", "a.bam", "-o", "p", "-r", "chr1:"]

/-- The namespace that parsing `argvC3` produces. -/
def argsC3 : Args :=
  { bam := some "a.bam", outPref := some "p", regions := some "chr1:" }

/-! Shared lemmas about the batch loop. -/

lemma batchEffects_length (args : Args) (base_cfg : Cfg) (env : Env) :
    ∀ (entries : List (String × String)) (k : Nat),
      (batchEffects args base_cfg env k entries).length = entries.length := by
  intro entries
  induction entries with
  | nil => intro k; rfl
  | cons e rest ih =>
    intro k
    obtain ⟨b, t⟩ := e
    simp [batchEffects, ih (k + 1)]

lemma batchEffects_getElem? (args : Args) (base_cfg : Cfg) (env : Env) :
    ∀ (entries : List (String × String)) (k i : Nat),
      (batchEffects args base_cfg env k entries)[i]?
        = entries[i]?.map (fun e =>
            run_single_bam args base_cfg e.1 e.2 (env.cfgExists (k + i))
              (env.promptAnswer (k + i)) (env.engineExit (k + i))) := by
  intro entries
  induction entries with
  | nil => intro k i; rfl
  | cons e rest ih =>
    intro k i
    obtain ⟨b, t⟩ := e
    cases i with
    | zero => simp [batchEffects]
    | succ j =>
      have := ih (k + 1) j
      simp only [batchEffects, List.getElem?_cons_succ, this]
      have harith : k + 1 + j = k + (j + 1) := by omega
      rw [harith]

/-! Claim theorems. -/

/-- C4: for every requested core count `c` (any integer), the
`angsd_threads` field of the synthesized configuration equals
`max (1, min (c, 64))`; in particular `c = 200` yields 64, `c = 0`
yields 1, and `c = 8` yields 8. -/
theorem C4_thread_clamp (args : Args) (thresholds roh_mins : List Rat) :
    (buildBase args thresholds roh_mins).angsd_threads
        = max 1 (min args.cores 64)
      ∧ (buildBase { args with cores := 200 } thresholds roh_mins).angsd_threads
        = 64
      ∧ (buildBase { args with cores := 0 } thresholds roh_mins).angsd_threads
        = 1
      ∧ (buildBase { args with cores := 8 } thresholds roh_mins).angsd_threads
        = 8 :=
  ⟨rfl, rfl, rfl, rfl⟩

/-- C5: if the resolved ROH threshold sequence has length exactly 1 the
configuration's `roh_min` holds that single number as a scalar, and if
its length is greater than 1 it holds the full sequence in source
order. -/
theorem C5_roh_collapse (args : Args) (thresholds roh_mins : List Rat) :
    (roh_mins.length = 1 →
      (buildBase args thresholds roh_mins).roh_min
        = .scalar (roh_mins.headD 0)) ∧
    (1 < roh_mins.length →
      (buildBase args thresholds roh_mins).roh_min = .list roh_mins) := by
  constructor
  · intro h
    match roh_mins, h with
    | [x], _ => rfl
  · intro h
    match roh_mins, h with
    | x :: y :: rest, _ => rfl

/-- Witness for C5 at concrete inputs: a singleton ROH list collapses
to a scalar and a two-element list is kept whole. -/
theorem C5_roh_collapse_witness :
    (buildBase {} [(0.05 : Rat)] [(0.3 : Rat)]).roh_min = .scalar 0.3 ∧
    (buildBase {} [(0.05 : Rat)] [(0.1 : Rat), 0.2]).roh_min
      = .list [0.1, 0.2] :=
  ⟨(C5_roh_collapse {} [0.05] [0.3]).1 rfl,
   (C5_roh_collapse {} [0.05] [0.1, 0.2]).2 (by decide)⟩

/-- C10: the concurrency value placed after `--cores` in the engine
command line is the raw requested count, while the configuration's
`angsd_threads` is the clamped value; at `c = 200` the command carries
`200` and the artifact records 64. -/
theorem C10_raw_cores (args : Args) (thresholds roh_mins : List Rat)
    (cfg_path : String) :
    (buildCmd args cfg_path)[4]? = some (toString args.cores)
      ∧ (buildBase args thresholds roh_mins).angsd_threads
        = max 1 (min args.cores 64)
      ∧ (buildCmd { args with cores := 200 } cfg_path)[4]? = some "200"
      ∧ (buildBase { args with cores := 200 } thresholds roh_mins).angsd_threads
        = 64 :=
  ⟨rfl, rfl, rfl, rfl⟩

/-- C1 counterexample: with the dry-run flag set and no pre-existing
config file, `run_single_bam` still writes the configuration artifact,
so dry-run does not suppress the write. -/
theorem C1_counterexample :
    argsDryEx.dry_run = true ∧
    (run_single_bam argsDryEx baseCfgEx "a.bam" "p" false "" 0).wrote
      = true :=
  ⟨rfl, rfl⟩

/-- C1 (amended): when the dry-run flag is requested no external
process is executed, regardless of other flags, and unless the run was
skipped at the overwrite prompt the outcome is trivially success — but
the configuration artifact is still written. -/
theorem C1_dry_run (args : Args) (base_cfg : Cfg) (bamPath tag : String)
    (cfgExists : Bool) (promptAnswer : String) (engineExit : Int)
    (hdry : args.dry_run = true) :
    (run_single_bam args base_cfg bamPath tag cfgExists promptAnswer
        engineExit).outcome.executed = false ∧
    ((run_single_bam args base_cfg bamPath tag cfgExists promptAnswer
        engineExit).outcome = .skipped ∨
     ((run_single_bam args base_cfg bamPath tag cfgExists promptAnswer
          engineExit).outcome = .dryRunSuccess ∧
      (run_single_bam args base_cfg bamPath tag cfgExists promptAnswer
          engineExit).outcome.ok = true ∧
      (run_single_bam args base_cfg bamPath tag cfgExists promptAnswer
          engineExit).wrote = true)) := by
  simp only [run_single_bam, hdry, if_true]
  split
  · exact ⟨rfl, Or.inl rfl⟩
  · exact ⟨rfl, Or.inr ⟨rfl, rfl, rfl⟩⟩

/-- Witness for C1 at a concrete input: dry run, file absent, prompt
and engine irrelevant. -/
theorem C1_dry_run_witness :
    (run_single_bam argsDryEx baseCfgEx "a.bam" "p" false "" 0).outcome.executed
        = false ∧
    ((run_single_bam argsDryEx baseCfgEx "a.bam" "p" false "" 0).outcome
        = .skipped ∨
     ((run_single_bam argsDryEx baseCfgEx "a.bam" "p" false "" 0).outcome
          = .dryRunSuccess ∧
      (run_single_bam argsDryEx baseCfgEx "a.bam" "p" false "" 0).outcome.ok
          = true ∧
      (run_single_bam argsDryEx baseCfgEx "a.bam" "p" false "" 0).wrote
          = true)) :=
  C1_dry_run argsDryEx baseCfgEx "a.bam" "p" false "" 0 rfl

/-- C2: for a batch entry whose config path already exists, with the
force flag absent and the prompt answered `no`, the run's outcome is
`skipped` — counted as neither a success (`ok = false`) nor an engine
failure — the artifact is not written (file unchanged), and every
entry of the batch still yields an attempt. -/
theorem C2_skip_semantics (args : Args) (base_cfg : Cfg) (env : Env)
    (entries : List (String × String)) (i : Nat)
    (hi : i < entries.length)
    (hex : env.cfgExists i = true) (hforce : args.force = false)
    (hno : isYes (env.promptAnswer i) = false) :
    (batchEffects args base_cfg env 0 entries).length = entries.length ∧
    ∃ eff, (batchEffects args base_cfg env 0 entries)[i]? = some eff ∧
      eff.outcome = .skipped ∧ eff.outcome.ok = false ∧
      eff.outcome.executed = false ∧ eff.wrote = false ∧
      eff.written = none := by
  refine ⟨batchEffects_length args base_cfg env entries 0, ?_⟩
  have he : entries[i]? = some entries[i] := List.getElem?_eq_getElem hi
  refine ⟨run_single_bam args base_cfg entries[i].1 entries[i].2
    (env.cfgExists i) (env.promptAnswer i) (env.engineExit i), ?_, ?_⟩
  · rw [batchEffects_getElem? args base_cfg env entries 0 i, he]
    simp
  · simp only [run_single_bam, hex, hforce, hno]
    simp [RunOutcome.ok, RunOutcome.executed]

/-- Witness for C2 at a concrete input: two entries, the first config
path exists, no force flag, prompt answered `n`. -/
theorem C2_skip_semantics_witness :
    (batchEffects ({} : Args) baseCfgEx envEx 0
        [("a.bam", "a"), ("b.bam", "b")]).length
      = ([("a.bam", "a"), ("b.bam", "b")] : List (String × String)).length ∧
    ∃ eff, (batchEffects ({} : Args) baseCfgEx envEx 0
        [("a.bam", "a"), ("b.bam", "b")])[0]? = some eff ∧
      eff.outcome = .skipped ∧ eff.outcome.ok = false ∧
      eff.outcome.executed = false ∧ eff.wrote = false ∧
      eff.written = none :=
  C2_skip_semantics {} baseCfgEx envEx [("a.bam", "a"), ("b.bam", "b")] 0
    (by decide) rfl rfl (by decide)

/-! Lemmas relating the two list-reading modes to the kept lines. -/

lemma readBamsAux_eq_kept (lines : List String) :
    ∀ n, readBamsAux n lines
      = (keptFrom n lines).map (fun nl => parseBamLine nl.2) := by
  induction lines with
  | nil => intro n; rfl
  | cons line rest ih =>
    intro n
    by_cases h : keepLine (pyStrip line)
    · simp [readBamsAux, keptFrom, h, ih (n + 1)]
    · simp [readBamsAux, keptFrom, h, ih (n + 1)]

/-- C8: for a sample-list file whose kept (non-blank, non-comment)
lines number N, the orchestrator makes exactly N run attempts, in file
order, each kept line contributing its parsed `(path, prefix)` pair,
and every attempt yields an effect whatever the per-run outcomes are
(no short-circuiting: the conclusion holds for every environment, so
for every combination of failed or skipped runs). -/
theorem C8_batch_iteration (pf : String → Option Rat) (args : Args)
    (env : Env) (lines : List String) (thresholds roh_mins : List Rat)
    (hpre : bamPrefixOk args = true)
    (hts : resolveThresholds pf args env = .ok thresholds)
    (hrs : resolveRoh pf args env = .ok roh_mins)
    (hbl : optTruthy args.bam_list = true)
    (hfile : env.files (args.bam_list.getD "") = some lines) :
    (mainRun pf args env).attempts
        = (keptFrom 1 lines).map (fun nl => parseBamLine nl.2) ∧
    (mainRun pf args env).attempts.length = (keptFrom 1 lines).length ∧
    (mainRun pf args env).effects.length
        = (mainRun pf args env).attempts.length := by
  have hmap := readBamsAux_eq_kept lines 1
  simp only [mainRun, hpre, Bool.not_true, Bool.false_eq_true, if_false,
    hts, hrs, hbl, if_true, read_file_list_bams, hfile]
  by_cases hk : readBamsAux 1 lines = []
  · have hkept : (keptFrom 1 lines).map (fun nl => parseBamLine nl.2) = [] := by
      rw [← hmap]; exact hk
    have hkl : keptFrom 1 lines = [] := List.map_eq_nil_iff.mp hkept
    simp [hk, hkept, hkl]
  · simp only [hk, if_false, if_neg hk]
    refine ⟨hmap, ?_, ?_⟩
    · rw [hmap]; simp
    · exact batchEffects_length args _ env _ 0

/-- Witness for C8 at the three-line scenario: exactly two attempts,
`(a.bam, sampleA)` then `(b.bam, b)`, the comment line ignored. -/
theorem C8_batch_iteration_witness :
    (mainRun pfNone argsListEx envListEx).attempts
        = [("a.bam", "sampleA"), ("b.bam", "b")] ∧
    (mainRun pfNone argsListEx envListEx).attempts.length = 2 ∧
    (mainRun pfNone argsListEx envListEx).effects.length
        = (mainRun pfNone argsListEx envListEx).attempts.length :=
  C8_batch_iteration pfNone argsListEx envListEx linesEx
    [(0.05 : Rat)] [(0.2 : Rat)] rfl rfl rfl rfl rfl

/-- C9: a sample-list line holding only a path derives its prefix as
the path's base name with the extension removed; a line holding a path
and a second token takes that literal second token as the prefix. -/
theorem C9_prefix_derivation (l p q : String) (rest : List String) :
    (pySplit l = [p] →
      parseBamLine l = (p, splitextRoot (basenameOf p))) ∧
    (pySplit l = p :: q :: rest → parseBamLine l = (p, q)) := by
  constructor
  · intro h; simp [parseBamLine, h]
  · intro h; simp [parseBamLine, h]

/-- Witness for C9: a path-only line yields the stripped base name, a
two-token line yields the literal second token. -/
theorem C9_prefix_derivation_witness :
    parseBamLine "data/sample1.bam" = ("data/sample1.bam", "sample1") ∧
    parseBamLine "a.bam s1 extra" = ("a.bam", "s1") :=
  ⟨(C9_prefix_derivation "data/sample1.bam" "data/sample1.bam" "" []).1
      (by decide),
   (C9_prefix_derivation "a.bam s1 extra" "a.bam" "s1" ["extra"]).2
      (by decide)⟩

/-! Lemmas characterizing the numeric-mode reading loop. -/

lemma readValuesAux_ok (pf : String → Option Rat) (path : String)
    (lines : List String) :
    ∀ n, (∀ nl ∈ keptFrom n lines, (pf nl.2).isSome = true) →
      readValuesAux pf path n lines
        = .ok ((keptFrom n lines).filterMap (fun nl => pf nl.2)) := by
  induction lines with
  | nil => intro n _; rfl
  | cons line rest ih =>
    intro n hall
    by_cases h : keepLine (pyStrip line)
    · have hmem : ((n, pyStrip line) : Nat × String) ∈ keptFrom n (line :: rest) := by
        simp [keptFrom, h]
      obtain ⟨v, hv⟩ := Option.isSome_iff_exists.mp (hall _ hmem)
      have hall2 : ∀ nl ∈ keptFrom (n + 1) rest, (pf nl.2).isSome = true := by
        intro nl hnl
        exact hall nl (by simp [keptFrom, h, hnl])
      simp [readValuesAux, keptFrom, h, hv, ih (n + 1) hall2]
    · have hall2 : ∀ nl ∈ keptFrom (n + 1) rest, (pf nl.2).isSome = true := by
        intro nl hnl
        exact hall nl (by simp [keptFrom, h, hnl])
      simp [readValuesAux, keptFrom, h, ih (n + 1) hall2]

lemma readValuesAux_err (pf : String → Option Rat) (path : String)
    (lines : List String) :
    ∀ n m l,
      (keptFrom n lines).find? (fun nl => (pf nl.2).isNone) = some (m, l) →
      readValuesAux pf path n lines = .error (.parseError m l path) := by
  induction lines with
  | nil => intro n m l h; simp [keptFrom] at h
  | cons line rest ih =>
    intro n m l h
    by_cases hk : keepLine (pyStrip line)
    · rw [keptFrom] at h
      simp only [hk, if_true] at h
      by_cases hp : (pf (pyStrip line)).isNone
      · rw [List.find?_cons_of_pos _ (by simpa using hp)] at h
        simp only [Option.some.injEq, Prod.mk.injEq] at h
        obtain ⟨hm, hl⟩ := h
        have hpf : pf (pyStrip line) = none := Option.isNone_iff_eq_none.mp hp
        subst hm hl
        simp [readValuesAux, hk, hpf]
      · rw [List.find?_cons_of_neg _ (by simpa using hp)] at h
        cases hpf : pf (pyStrip line) with
        | none => exact absurd (by simp [hpf]) hp
        | some v => simp [readValuesAux, hk, hpf, ih (n + 1) m l h]
    · rw [keptFrom] at h
      simp only [hk, if_false] at h
      simp [readValuesAux, hk, ih (n + 1) m l h]

/-- C6: list resolution fails with `missingFile` exactly on an absent
file; in numeric mode it fails with a `parseError` naming the 1-based
line number and the stripped offending text of the first kept line
that does not parse, returning no partial list; it fails with
`emptyList` when no kept entries remain; otherwise it returns the
ordered non-empty parsed sequence.  A resolution error makes the whole
program exit with status 1 before any run is attempted. -/
theorem C6_list_resolution (pf : String → Option Rat) (path : String)
    (lines : List String) :
    read_file_list_values pf path none = .error (.missingFile path) ∧
    (∀ m l,
      (keptFrom 1 lines).find? (fun nl => (pf nl.2).isNone) = some (m, l) →
      read_file_list_values pf path (some lines)
        = .error (.parseError m l path)) ∧
    ((∀ nl ∈ keptFrom 1 lines, (pf nl.2).isSome = true) →
      keptFrom 1 lines = [] →
      read_file_list_values pf path (some lines)
        = .error (.emptyList path)) ∧
    ((∀ nl ∈ keptFrom 1 lines, (pf nl.2).isSome = true) →
      keptFrom 1 lines ≠ [] →
      read_file_list_values pf path (some lines)
        = .ok ((keptFrom 1 lines).filterMap (fun nl => pf nl.2)) ∧
      (keptFrom 1 lines).filterMap (fun nl => pf nl.2) ≠ []) ∧
    (∀ (args : Args) (env : Env) (e : ListError),
      optTruthy args.threshold_list = true →
      read_file_list_values pf (args.threshold_list.getD "")
          (env.files (args.threshold_list.getD "")) = .error e →
      (mainRun pf args env).exitCode = 1 ∧
      (mainRun pf args env).attempts = [] ∧
      (mainRun pf args env).effects = []) := by
  refine ⟨rfl, ?_, ?_, ?_, ?_⟩
  · intro m l h
    simp [read_file_list_values, readValuesAux_err pf path lines 1 m l h]
  · intro hall hempty
    simp [read_file_list_values, readValuesAux_ok pf path lines 1 hall, hempty]
  · intro hall hne
    have hok := readValuesAux_ok pf path lines 1 hall
    obtain ⟨x, rest, hx⟩ : ∃ x rest, keptFrom 1 lines = x :: rest := by
      cases hkept : keptFrom 1 lines with
      | nil => exact absurd hkept hne
      | cons x rest => exact ⟨x, rest, rfl⟩
    obtain ⟨v, hv⟩ := Option.isSome_iff_exists.mp (hall x (hx ▸ List.mem_cons_self x rest))
    have hfm : (keptFrom 1 lines).filterMap (fun nl => pf nl.2) ≠ [] := by
      rw [hx]
      simp [List.filterMap_cons, hv]
    refine ⟨?_, hfm⟩
    simp [read_file_list_values, hok, hfm]
  · intro args env e htl herr
    by_cases hb : bamPrefixOk args = true
    · have hres : resolveThresholds pf args env = .error e := by
        simp [resolveThresholds, htl, herr]
      simp [mainRun, hb, hres]
    · simp only [Bool.not_eq_true] at hb
      simp [mainRun, hb]

/-- Witness for C6 at concrete inputs: a missing file, a file whose
second line fails to parse, a file with only comments and blanks, a
file resolving to two ordered values, and a missing threshold-list
file aborting the program with exit status 1 and no attempts. -/
theorem C6_list_resolution_witness :
    read_file_list_values pfEx "t.txt" none
        = .error (.missingFile "t.txt") ∧
    read_file_list_values pfEx "t.txt" (some ["0.05", "abc"])
        = .error (.parseError 2 "abc" "t.txt") ∧
    read_file_list_values pfEx "t.txt" (some ["# c", "  "])
        = .error (.emptyList "t.txt") ∧
    read_file_list_values pfEx "t.txt" (some ["0.05", " 0.1 "])
        = .ok [(0.05 : Rat), 0.1] ∧
    (mainRun pfEx argsTLEx envNoneEx).exitCode = 1 ∧
    (mainRun pfEx argsTLEx envNoneEx).attempts = [] ∧
    (mainRun pfEx argsTLEx envNoneEx).effects = [] :=
  ⟨(C6_list_resolution pfEx "t.txt" []).1,
   (C6_list_resolution pfEx "t.txt" ["0.05", "abc"]).2.1 2 "abc" (by decide),
   (C6_list_resolution pfEx "t.txt" ["# c", "  "]).2.2.1 (by decide) (by decide),
   ((C6_list_resolution pfEx "t.txt" ["0.05", " 0.1 "]).2.2.2.1
      (by decide) (by decide)).1,
   (C6_list_resolution pfEx "missing.txt" []).2.2.2.2 argsTLEx envNoneEx
      (.missingFile "missing.txt") rfl rfl⟩

/-- C7: the process exit status is always 0 or 1; it is 0 exactly when
every pre-batch validation passed (the prefix check and every requested
list resolution) and every attempted run returned success (dry runs
returning success trivially), i.e. the success count equals the number
of attempts; it is 1 when a validation fails or the success count
falls short. -/
theorem C7_exit_status (pf : String → Option Rat) (args : Args)
    (env : Env) :
    ((mainRun pf args env).exitCode = 0 ∨
     (mainRun pf args env).exitCode = 1) ∧
    ((mainRun pf args env).exitCode = 0 ↔
      (validationsOk pf args env = true ∧
       countOk (mainRun pf args env).effects
         = (mainRun pf args env).attempts.length)) := by
  by_cases hb : bamPrefixOk args = true
  · cases hts : resolveThresholds pf args env with
    | error e => simp [mainRun, validationsOk, hb, hts, Except.isOk, Except.toBool]
    | ok ts =>
      cases hrs : resolveRoh pf args env with
      | error e => simp [mainRun, validationsOk, hb, hts, hrs, Except.isOk, Except.toBool]
      | ok rs =>
        by_cases hbl : optTruthy args.bam_list = true
        · cases hread : read_file_list_bams (args.bam_list.getD "")
              (env.files (args.bam_list.getD "")) with
          | error e =>
            simp [mainRun, validationsOk, hb, hts, hrs, hbl, hread,
              Except.isOk, Except.toBool]
          | ok bams =>
            have hle : countOk (batchEffects args (buildBase args ts rs)
                env 0 bams) ≤ bams.length := by
              calc countOk (batchEffects args (buildBase args ts rs) env 0 bams)
                  ≤ (batchEffects args (buildBase args ts rs) env 0 bams).length :=
                    List.length_filter_le _ _
                _ = bams.length := batchEffects_length args _ env bams 0
            by_cases hlt : countOk (batchEffects args (buildBase args ts rs)
                env 0 bams) < bams.length
            · have hne : countOk (batchEffects args (buildBase args ts rs)
                  env 0 bams) ≠ bams.length := by omega
              simp [mainRun, validationsOk, hb, hts, hrs, hbl, hread,
                Except.isOk, Except.toBool, hlt, hne]
            · have heq : countOk (batchEffects args (buildBase args ts rs)
                  env 0 bams) = bams.length := by omega
              simp [mainRun, validationsOk, hb, hts, hrs, hbl, hread,
                Except.isOk, Except.toBool, hlt, heq]
        · cases hok : (run_single_bam args (buildBase args ts rs)
              (args.bam.getD "") (args.outPref.getD "") (env.cfgExists 0)
              (env.promptAnswer 0) (env.engineExit 0)).outcome.ok with
          | true =>
            simp [mainRun, validationsOk, hb, hts, hrs, hbl, Except.isOk, Except.toBool,
              hok, countOk]
          | false =>
            simp [mainRun, validationsOk, hb, hts, hrs, hbl, Except.isOk, Except.toBool,
              hok, countOk]
  · simp only [Bool.not_eq_true] at hb
    simp [mainRun, validationsOk, hb]

/-! Lemmas for the mutual-exclusion bookkeeping of the parser. -/

lemma checkGroup_regions_g4 (s s2 : Seen)
    (h : checkGroup .regionsOpt s = some s2) :
    s2.g4 = some .regionsOpt := by
  simp only [checkGroup, groupOf, Seen.get] at h
  split at h
  · rename_i o2 heq
    split at h
    · rename_i ho
      rw [← Option.some.inj h, heq, ho]
    · exact Option.noConfusion h
  · rw [← Option.some.inj h]; rfl

lemma checkGroup_rf_g4 (s s2 : Seen)
    (h : checkGroup .rfOpt s = some s2) :
    s2.g4 = some .rfOpt := by
  simp only [checkGroup, groupOf, Seen.get] at h
  split at h
  · rename_i o2 heq
    split at h
    · rename_i ho
      rw [← Option.some.inj h, heq, ho]
    · exact Option.noConfusion h
  · rw [← Option.some.inj h]; rfl

lemma checkGroup_other_g4 (o : OptName) (s s2 : Seen)
    (hro : o ≠ .regionsOpt) (hfo : o ≠ .rfOpt)
    (h : checkGroup o s = some s2) : s2.g4 = s.g4 := by
  cases o
  case regionsOpt => exact absurd rfl hro
  case rfOpt => exact absurd rfl hfo
  all_goals simp only [checkGroup, groupOf, Seen.get] at h
  all_goals try rw [← Option.some.inj h]
  all_goals split at h
  all_goals try split at h
  all_goals
    first
    | exact Option.noConfusion h
    | (rw [← Option.some.inj h]; try rfl)

lemma checkGroup_regions_not_rf (s s2 : Seen)
    (h : checkGroup .regionsOpt s = some s2) : s.g4 ≠ some .rfOpt := by
  intro hg
  simp [checkGroup, groupOf, Seen.get, hg] at h

lemma checkGroup_rf_not_regions (s s2 : Seen)
    (h : checkGroup .rfOpt s = some s2) : s.g4 ≠ some .regionsOpt := by
  intro hg
  simp [checkGroup, groupOf, Seen.get, hg] at h

lemma isFlag_groupOf (o : OptName) (h : isFlag o = true) :
    groupOf o = none := by
  cases o <;> simp_all [isFlag, groupOf]

lemma setFlag_region_fields (o : OptName) (a : Args) :
    (setFlag o a).regions = a.regions ∧ (setFlag o a).rf = a.rf := by
  cases o <;> simp [setFlag]

lemma setVal_regionInv (pf : String → Option Rat) (pi : String → Option Int)
    (o : OptName) (v : String) (a a3 : Args) (s s3 : Seen)
    (hsv : setVal pf pi o v a = some a3)
    (hchk : checkGroup o s = some s3) (hinv : RegionInv a s) :
    RegionInv a3 s3 := by
  cases o
  case regionsOpt =>
    simp only [setVal, Option.some.injEq] at hsv
    subst hsv
    exact ⟨fun _ => checkGroup_regions_g4 s s3 hchk,
           fun hf => absurd (hinv.2 hf) (checkGroup_regions_not_rf s s3 hchk)⟩
  case rfOpt =>
    simp only [setVal, Option.some.injEq] at hsv
    subst hsv
    exact ⟨fun hr => absurd (hinv.1 hr) (checkGroup_rf_not_regions s s3 hchk),
           fun _ => checkGroup_rf_g4 s s3 hchk⟩
  all_goals
    first
    | (simp only [setVal, Option.some.injEq] at hsv; subst hsv)
    | (simp only [setVal] at hsv
       obtain ⟨n, hn, ha3⟩ := Option.map_eq_some'.mp hsv
       subst ha3)
  all_goals
    have hg4 := checkGroup_other_g4 _ s s3
      (fun hx => OptName.noConfusion hx) (fun hx => OptName.noConfusion hx)
      hchk
  all_goals
    exact ⟨fun hr => by rw [hg4]; exact hinv.1 hr,
           fun hf => by rw [hg4]; exact hinv.2 hf⟩

lemma parseLoop_regionInv (pf : String → Option Rat)
    (pi : String → Option Int) :
    ∀ (fuel : Nat) (argv : List String), argv.length ≤ fuel →
    ∀ (a : Args) (s : Seen) (a2 : Args) (s2 : Seen),
      parseLoop pf pi argv a s = some (a2, s2) →
      RegionInv a s → RegionInv a2 s2 := by
  intro fuel
  induction fuel with
  | zero =>
    intro argv hlen a s a2 s2 hp hinv
    have hargv : argv = [] := List.length_eq_zero.mp (Nat.le_zero.mp hlen)
    subst hargv
    simp only [parseLoop, Option.some.injEq, Prod.mk.injEq] at hp
    obtain ⟨ha, hs⟩ := hp
    subst ha; subst hs
    exact hinv
  | succ n ih =>
    intro argv hlen a s a2 s2 hp hinv
    cases argv with
    | nil =>
      simp only [parseLoop, Option.some.injEq, Prod.mk.injEq] at hp
      obtain ⟨ha, hs⟩ := hp
      subst ha; subst hs
      exact hinv
    | cons tok rest =>
      simp only [parseLoop] at hp
      cases hlook : lookupOpt tok with
      | none => simp [hlook] at hp
      | some o =>
        simp only [hlook] at hp
        cases hchk : checkGroup o s with
        | none => simp [hchk] at hp
        | some s3 =>
          simp only [hchk] at hp
          by_cases hfl : isFlag o
          · rw [if_pos hfl] at hp
            have hs3 : s3 = s := by
              have hgo := isFlag_groupOf o hfl
              simp only [checkGroup, hgo, Option.some.injEq] at hchk
              exact hchk.symm
            subst hs3
            refine ih rest (by simp at hlen; omega) _ _ _ _ hp ?_
            obtain ⟨hfr, hff⟩ := setFlag_region_fields o a
            exact ⟨fun hr => hinv.1 (hfr ▸ hr), fun hf => hinv.2 (hff ▸ hf)⟩
          · rw [if_neg hfl] at hp
            cases rest with
            | nil => simp at hp
            | cons v rest2 =>
              cases hsv : setVal pf pi o v a with
              | none => simp [hsv] at hp
              | some a3 =>
                simp only [hsv] at hp
                refine ih rest2 (by simp at hlen; omega) _ _ _ _ hp ?_
                exact setVal_regionInv pf pi o v a a3 s s3 hsv hchk hinv

/-- C3 counterexample: a concrete invocation supplying both the region
string option and the region-file option is rejected by the argument
parser (argparse's mutually exclusive group), so it is not the case
that both values are accepted. -/
theorem C3_counterexample :
    parse_args pfNone piNone
      ["-b", "a.bam", "-o", "p", "-r", "chr1:", "-f", "reg.txt"]
      = none := by decide

/-- C3 (amended): the region string and region-file options are
mutually exclusive and argparse does enforce this — any invocation
supplying both is rejected, so an accepted invocation never carries
both values; both fields (the unsupplied one as `None`) are still
passed through into the configuration as `regions` and `rf`. -/
theorem C3_region_exclusion (pf : String → Option Rat)
    (pi : String → Option Int) (argv : List String) (a : Args)
    (h : parse_args pf pi argv = some a) :
    ¬(a.regions.isSome = true ∧ a.rf.isSome = true) ∧
    ∀ (thresholds roh_mins : List Rat),
      (buildBase a thresholds roh_mins).regions = a.regions ∧
      (buildBase a thresholds roh_mins).rf = a.rf := by
  refine ⟨?_, fun t r => ⟨rfl, rfl⟩⟩
  rintro ⟨hr, hf⟩
  unfold parse_args at h
  cases hp : parseLoop pf pi argv {} {} with
  | none => simp [hp] at h
  | some pr =>
    obtain ⟨a2, s2⟩ := pr
    simp only [hp] at h
    by_cases hg1 : s2.g1.isSome
    · rw [if_pos hg1] at h
      have ha : a2 = a := Option.some.inj h
      subst ha
      have hinv := parseLoop_regionInv pf pi argv.length argv le_rfl
        {} {} a2 s2 hp ⟨fun hx => (nomatch hx), fun hx => (nomatch hx)⟩
      have e2 := (hinv.1 hr).symm.trans (hinv.2 hf)
      exact OptName.noConfusion (Option.some.inj e2)
    · rw [if_neg hg1] at h
      exact Option.noConfusion h

/-- Witness for C3 (amended) at a concrete accepted invocation. -/
theorem C3_region_exclusion_witness :
    ¬(argsC3.regions.isSome = true ∧ argsC3.rf.isSome = true) ∧
    ∀ (thresholds roh_mins : List Rat),
      (buildBase argsC3 thresholds roh_mins).regions = argsC3.regions ∧
      (buildBase argsC3 thresholds roh_mins).rf = argsC3.rf :=
  C3_region_exclusion pfNone piNone argvC3 argsC3 (by decide)

end Hetcall
